import Mathlib

/-!
# Verification of the finance-overview Streamlit app (`src/app.py`)

Shallow embedding of the data-processing core of `app.py`:

* `try_read_csv`  — CSV reading with an encoding-fallback loop;
* `to_float`, `parse_date` — best-effort numeric/date parsing;
* `ensure_columns` — column normalization into the fixed schema
  `datum`, `castka`, `popis`, `kategorie`;
* `apply_rules` — keyword/regex rule categorization;
* `monthly_summary`, `category_summary` — aggregate summaries;
* the rule constructor used by the sidebar UI (`mkRule`).

Modelling conventions:

* A pandas `DataFrame` of transactions is a `List Row`; the row index is
  the list position.
* Monetary amounts are exact rationals `ℚ` (the Python code uses floats;
  the claims under verification are about the arithmetic relations, which
  we verify over exact arithmetic).
* A missing value (`NaN`/`NaT`/`None`) is `Option.none`.
* Calls into external libraries that the repository does not define are
  parameters of the embedding: `pd.read_csv` becomes an `attempt`
  function, Python `float(...)` becomes `pyFloat`, `pd.to_datetime`
  becomes `toDatetime`, and the `re` regex engine becomes a
  `RegexEngine`.  All theorems quantify over these parameters.
* The Python string methods used by the code are modelled by executable
  functions on the character list of a `String`: `str.strip` by
  `pyStrip`, `str.lower` by `pyLower`, `str.replace` by `pyReplace`,
  `str.split` by `pySplit`, and substring containment (`in`, or
  `Series.str.contains` with an escaped pattern) by list-infix
  containment on the characters (`strContains`).
-/

namespace FinancePrehled

/-- Python `str.strip()`: drop leading and trailing whitespace. -/
def pyStrip (s : String) : String :=
  ⟨((s.data.dropWhile Char.isWhitespace).reverse.dropWhile Char.isWhitespace).reverse⟩

/-- Python `str.lower()`: lower-case every character. -/
def pyLower (s : String) : String :=
  ⟨s.data.map Char.toLower⟩

/-- Replace every (non-overlapping, leftmost-first) occurrence of `pat`
by `rep`. The fuel argument only bounds the recursion; it is always
called with at least the length of the scanned list, which each step
shortens. -/
def pyReplaceAux (pat rep : List Char) : Nat → List Char → List Char
  | _, [] => []
  | 0, l => l
  | fuel+1, c :: rest =>
    if pat.isPrefixOf (c :: rest) && !pat.isEmpty
    then rep ++ pyReplaceAux pat rep fuel (rest.drop (pat.length - 1))
    else c :: pyReplaceAux pat rep fuel rest

/-- Python `s.replace(pat, rep)` (for a non-empty `pat`, the only way
the code calls it). -/
def pyReplace (s pat rep : String) : String :=
  ⟨pyReplaceAux pat.data rep.data s.data.length s.data⟩

/-- Worker for `pySplit`: `acc` is the reversed current field. -/
def pySplitAux (sep : List Char) : Nat → List Char → List Char → List (List Char)
  | 0, acc, l => [acc.reverse ++ l]
  | _, acc, [] => [acc.reverse]
  | fuel+1, acc, c :: rest =>
    if sep.isPrefixOf (c :: rest) && !sep.isEmpty
    then acc.reverse :: pySplitAux sep fuel [] (rest.drop (sep.length - 1))
    else pySplitAux sep fuel (c :: acc) rest

/-- Python `s.split(sep)` (for a non-empty `sep`, the only way the code
calls it): `"a,,b".split(",") = ["a", "", "b"]`, `"".split(",") = [""]`. -/
def pySplit (s sep : String) : List String :=
  (pySplitAux sep.data (s.data.length + 1) [] s.data).map (fun l => ⟨l⟩)

/-- Substring containment: `strContains hay needle` models Python
`needle in hay` (and `hay.str.contains(re.escape(needle))`). -/
def strContains (hay needle : String) : Bool :=
  decide (needle.toList <:+: hay.toList)

/-! ## `try_read_csv` (app.py lines 19–27)

```python
def try_read_csv(file, sep_guess=";", encodings=("utf-8", "windows-1250", "cp1250", "iso-8859-2")):
    last_err = None
    for enc in encodings:
        try:
            return pd.read_csv(file, encoding=enc, sep=sep_guess, quotechar='"')
        except Exception as e:
            last_err = e
            continue
    raise last_err
```

`attempt enc` models `pd.read_csv(file, encoding=enc, ...)` for the fixed
file and separator: `.ok` a parsed table, `.error` a raised exception.
The function either returns a table or raises (`Except.error`); the
raised value is `some e` for a parser error `e`, and `none` models the
`raise last_err` with `last_err = None` (reachable only for an empty
encoding list). -/

/-- The default encoding tuple of `try_read_csv`. -/
def defaultEncodings : List String :=
  ["utf-8", "windows-1250", "cp1250", "iso-8859-2"]

/-- The fallback loop of `try_read_csv`: try each encoding in order,
remembering the last error. -/
def tryEncodings {E A : Type} (attempt : String → Except E A) :
    List String → Option E → Except (Option E) A
  | [], lastErr => .error lastErr
  | enc :: rest, _ =>
    match attempt enc with
    | .ok a => .ok a
    | .error e => tryEncodings attempt rest (some e)

/-- `try_read_csv` with the default encodings (the only way the app calls
it: line 120 passes only `file` and `sep_guess`). -/
def try_read_csv {E A : Type} (attempt : String → Except E A) : Except (Option E) A :=
  tryEncodings attempt defaultEncodings none

/-! ## `to_float` (app.py lines 29–38)

```python
def to_float(x):
    if pd.isna(x):
        return None
    s = str(x).strip()
    s = s.replace(" ", "").replace("\xa0", "").replace(",", ".")
    try:
        return float(s)
    except:
        return None
```

`pyFloat` models Python's `float(...)` on strings: `some q` for a
successful conversion, `none` when it raises. The input cell is
`Option String`: `none` models a `NaN` cell (`pd.isna`), `some s` the
cell whose `str(x)` is `s`. -/

/-- `to_float`, parameterized by the model `pyFloat` of Python `float`. -/
def to_float (pyFloat : String → Option ℚ) : Option String → Option ℚ
  | none => none
  | some x =>
    let s := pyStrip x
    let s := pyReplace (pyReplace (pyReplace s " " "") "\u00A0" "") "," "."
    pyFloat s

/-! ## `parse_date` (app.py lines 40–50)

```python
def parse_date(s):
    if pd.isna(s):
        return None
    s = str(s).strip()
    for dayfirst in (True, False):
        try:
            return pd.to_datetime(s, dayfirst=dayfirst, errors="raise")
        except:
            pass
    return pd.NaT
```

A date is a year/month/day triple. `toDatetime dayfirst s` models
`pd.to_datetime(s, dayfirst=dayfirst, errors="raise")`: `some d` on
success, `none` when it raises. -/

/-- A calendar date (the payload of a pandas `Timestamp`). -/
structure Date where
  year : Int
  month : Int
  day : Int
deriving DecidableEq, Repr

/-- The three shapes `parse_date` can return: a timestamp, Python
`None` (for an `isna` input), or `pd.NaT` (both parses failed). -/
inductive PdDate
  | timestamp (d : Date)
  | pyNone
  | NaT
deriving DecidableEq, Repr

/-- `parse_date`, parameterized by the model `toDatetime` of
`pd.to_datetime`. -/
def parse_date (toDatetime : Bool → String → Option Date) :
    Option String → PdDate
  | none => .pyNone
  | some x =>
    let s := pyStrip x
    match toDatetime true s with
    | some d => .timestamp d
    | none =>
      match toDatetime false s with
      | some d => .timestamp d
      | none => .NaT

/-- Both `None` and `NaT` are missing values: collapse `PdDate` to the
`Option` used for the `datum` column (pandas stores either as `NaT` in a
datetime column). -/
def PdDate.toOption : PdDate → Option Date
  | .timestamp d => some d
  | .pyNone => none
  | .NaT => none

/-! ## The normalized transaction table

After `ensure_columns` every table has exactly the four columns
`datum`, `castka`, `popis`, `kategorie` (app.py lines 52–61). -/

/-- One row of the normalized table. -/
structure Row where
  datum : Option Date
  castka : Option ℚ
  popis : String
  kategorie : String
deriving DecidableEq, Repr

/-! ## `ensure_columns` (app.py lines 52–70)

```python
def ensure_columns(df, mapping):
    out = pd.DataFrame(index=df.index)
    out["datum"] = df[mapping["date"]].map(parse_date)
    out["castka"] = df[mapping["amount"]].map(to_float)
    out["popis"] = df[mapping["desc"]].astype(str)
    if mapping.get("category"):
        out["kategorie"] = df[mapping["category"]].astype(str)
    else:
        out["kategorie"] = "Nezařazeno"
    if mapping.get("direction"):
        dir_col = df[mapping["direction"]].astype(str).str.lower()
        mask_income = dir_col.str.contains("příchozí|prichozi|credit|incoming")
        mask_exp = dir_col.str.contains("odchozí|odchozi|debit|outgoing")
        out.loc[mask_income & out["castka"].notna(), "castka"] = ....abs()
        out.loc[mask_exp & out["castka"].notna(), "castka"] = -....abs()
    return out
```

A raw row is a function from column name to cell (`none` = `NaN`). -/

/-- A row of the raw uploaded CSV: column name ↦ cell. A cell is
`none` for `NaN`, `some s` for a value whose `str(...)` is `s`. -/
abbrev RawRow : Type := String → Option String

/-- Python `Series.astype(str)`: `str(nan) = "nan"`, otherwise the
string itself. -/
def astypeStr : Option String → String
  | none => "nan"
  | some s => s

/-- The sidebar's column mapping (app.py lines 141–147): `category` and
`direction` are `none` when the user picked "(žádný)". -/
structure Mapping where
  date : String
  amount : String
  desc : String
  category : Option String
  direction : Option String

/-- The alternatives of the regex `"příchozí|prichozi|credit|incoming"`
(a pure alternation of literals, so `str.contains` with it is
"contains any of these substrings"). -/
def incomingMarkers : List String := ["příchozí", "prichozi", "credit", "incoming"]

/-- The alternatives of the regex `"odchozí|odchozi|debit|outgoing"`. -/
def outgoingMarkers : List String := ["odchozí", "odchozi", "debit", "outgoing"]

/-- `dir_col.str.contains(alternation)`: the lower-cased direction text
contains at least one of the markers. -/
def containsAny (hay : String) (needles : List String) : Bool :=
  needles.any (fun n => strContains hay n)

/-- The sign fix-up of the two `.loc` assignments, per row: first the
income mask sets `castka` to `abs`, then the expense mask sets it to
`-abs`; both only when `castka` is not `NaN`. -/
def directionFix (dirText : String) (castka : Option ℚ) : Option ℚ :=
  match castka with
  | none => none
  | some c =>
    let t := pyLower dirText
    let c := if containsAny t incomingMarkers then |c| else c
    let c := if containsAny t outgoingMarkers then -|c| else c
    some c

/-- `ensure_columns`, parameterized by the `float` and `to_datetime`
models (used through `to_float` and `parse_date`). -/
def ensure_columns (pyFloat : String → Option ℚ)
    (toDatetime : Bool → String → Option Date)
    (df : List RawRow) (mapping : Mapping) : List Row :=
  df.map (fun raw =>
    let castka := to_float pyFloat (raw mapping.amount)
    { datum := (parse_date toDatetime (raw mapping.date)).toOption
      castka :=
        match mapping.direction with
        | none => castka
        | some dcol => directionFix (astypeStr (raw dcol)) castka
      popis := astypeStr (raw mapping.desc)
      kategorie :=
        match mapping.category with
        | none => "Nezařazeno"
        | some ccol => astypeStr (raw ccol) })

/-! ## `apply_rules` (app.py lines 72–95)

```python
def apply_rules(df, rules):
    if not rules:
        return df
    cats = df["kategorie"].copy()
    text = (df["popis"].astype(str)).str.lower()
    for rule in rules:
        cat = rule.get("name", "Nezařazeno")
        kws = [k.strip().lower() for k in rule.get("keywords", []) if k.strip()]
        rx = rule.get("regex", "").strip()
        mask = pd.Series(False, index=df.index)
        if kws:
            for k in kws:
                mask = mask | text.str.contains(re.escape(k), na=False)
        if rx:
            try:
                mask = mask | text.str.contains(rx, regex=True, na=False, flags=re.IGNORECASE)
            except:
                pass
        cats = cats.mask(mask, cat)
    df = df.copy()
    df["kategorie"] = cats
    return df
```
-/

/-- A categorization rule, as built by the sidebar (app.py line 73):
`{"name": ..., "keywords": [...], "regex": ...}`. -/
structure Rule where
  name : String
  keywords : List String
  regex : String
deriving DecidableEq, Repr

/-- Model of the `re` module as used on line 89:
`compile pat = none` when `pat` is not a valid regular expression (the
`except: pass` case), and `compile pat = some f` when it is, where
`f text` models `re.search(pat, text, re.IGNORECASE) is not None`
(what `Series.str.contains(pat, regex=True, flags=re.IGNORECASE)`
computes for one cell). -/
structure RegexEngine where
  compile : String → Option (String → Bool)

/-- The rule's keyword list after the comprehension on line 81:
keep the keywords whose strip is non-blank, stripped and lower-cased. -/
def ruleKeywords (r : Rule) : List String :=
  (r.keywords.filter (fun k => pyStrip k ≠ "")).map (fun k => pyLower (pyStrip k))

/-- The per-row `mask` value built on lines 83–91 for one rule, on the
already lower-cased description `text`. -/
def ruleMatches (eng : RegexEngine) (r : Rule) (text : String) : Bool :=
  let kwHit := (ruleKeywords r).any (fun k => strContains text k)
  let rx := pyStrip r.regex
  let rxHit :=
    if rx = "" then false
    else
      match eng.compile rx with
      | some f => f text
      | none => false
  kwHit || rxHit

/-- The category a row ends with after the rule loop (lines 78–92):
`cats.mask(mask, cat)` replaces the running category by the rule's name
wherever the rule matched, so later rules override earlier ones. -/
def rowCategory (eng : RegexEngine) (rules : List Rule) (row : Row) : String :=
  rules.foldl
    (fun cat r => if ruleMatches eng r (pyLower row.popis) then r.name else cat)
    row.kategorie

/-- `apply_rules`: identity on an empty (falsy) rule list, otherwise a
copy of the table with the `kategorie` column rewritten. -/
def apply_rules (eng : RegexEngine) (df : List Row) (rules : List Rule) : List Row :=
  if rules.isEmpty then df
  else df.map (fun row => { row with kategorie := rowCategory eng rules row })

/-! ## `monthly_summary` (app.py lines 97–104)

```python
def monthly_summary(df):
    dd = df.copy()
    dd["mesic"] = dd["datum"].dt.to_period("M").dt.to_timestamp()
    agg = dd.groupby("mesic")["castka"].sum().sort_index()
    inc = dd[dd["castka"] > 0].groupby("mesic")["castka"].sum()
    exp = -dd[dd["castka"] < 0].groupby("mesic")["castka"].sum()
    res = pd.concat([inc.rename("Příjmy"), exp.rename("Výdaje"), agg.rename("Saldo")], axis=1).fillna(0.0)
    return res
```

`to_period("M")` keys a date by its calendar month; we encode the key as
the integer `year * 12 + month` (the period's ordinal), which sorts and
groups months the same way. Rows with `NaT` dates are dropped by
`groupby`; `NaN` amounts are skipped by `sum` (`skipna`); groups missing
from `inc`/`exp` become `0.0` through `fillna`. -/

/-- The month key of a row: `none` when the date is `NaT`. -/
def rowMonth (r : Row) : Option Int :=
  r.datum.map (fun d => d.year * 12 + d.month)

/-- Rows with a positive amount (`dd[dd["castka"] > 0]`; `NaN > 0` is
false, so missing amounts drop out). -/
def posRows (df : List Row) : List Row :=
  df.filter (fun r =>
    match r.castka with
    | some c => decide (0 < c)
    | none => false)

/-- Rows with a negative amount (`dd[dd["castka"] < 0]`). -/
def negRows (df : List Row) : List Row :=
  df.filter (fun r =>
    match r.castka with
    | some c => decide (c < 0)
    | none => false)

/-- The rows of a given month group. -/
def monthRows (df : List Row) (m : Int) : List Row :=
  df.filter (fun r => rowMonth r = some m)

/-- `Series.sum()` over the `castka` column of a row list: `NaN`s are
skipped, the empty sum is `0`. -/
def sumCastka (df : List Row) : ℚ :=
  (df.filterMap (fun r => r.castka)).sum

/-- One output row of `monthly_summary`. -/
structure MonthEntry where
  mesic : Int
  prijmy : ℚ
  vydaje : ℚ
  saldo : ℚ
deriving DecidableEq, Repr

/-- `monthly_summary`: one entry per month occurring in the table
(months of `NaT` dates excluded), index sorted ascending. -/
def monthly_summary (df : List Row) : List MonthEntry :=
  let months := ((df.filterMap rowMonth).dedup).insertionSort (· ≤ ·)
  months.map (fun m =>
    { mesic := m
      prijmy := sumCastka (monthRows (posRows df) m)
      vydaje := - sumCastka (monthRows (negRows df) m)
      saldo := sumCastka (monthRows df m) })

/-! ## `category_summary` (app.py lines 106–108)

```python
def category_summary(df):
    exp = df[df["castka"] < 0]
    return (-exp.groupby("kategorie")["castka"].sum().sort_values(ascending=False)).rename("Výdaje CZK")
```
-/

/-- The (negative) sum `exp.groupby("kategorie")["castka"].sum()`
produces for category `c`. -/
def categoryRawSum (df : List Row) (c : String) : ℚ :=
  sumCastka ((negRows df).filter (fun r => r.kategorie = c))

/-- The unsorted groupby series: one `(category, negative sum)` pair per
category occurring among the negative-amount rows. -/
def categoryPairs (df : List Row) : List (String × ℚ) :=
  (((negRows df).map (fun r => r.kategorie)).dedup).map (fun c => (c, categoryRawSum df c))

/-- `category_summary`: the unary minus in
`(-exp.groupby(...)["castka"].sum().sort_values(ascending=False))`
applies to the whole chain, so the *negative* per-category sums are
sorted descending first and negated afterwards (which leaves the
reported positive values in ascending order). -/
def category_summary (df : List Row) : List (String × ℚ) :=
  ((categoryPairs df).insertionSort (fun a b => b.2 ≤ a.2)).map (fun p => (p.1, -p.2))

instance : IsTotal (String × ℚ) (fun a b => b.2 ≤ a.2) :=
  ⟨fun a b => (le_total b.2 a.2)⟩

instance : IsTrans (String × ℚ) (fun a b => b.2 ≤ a.2) :=
  ⟨fun _ _ _ hab hbc => le_trans hbc hab⟩

/-! ## The sidebar rule constructor (app.py lines 163–168)

```python
st.session_state.category_rules.append({
    "name": cat_name.strip() or "Nezařazeno",
    "keywords": [k.strip() for k in keywords.split(",")] if keywords.strip() else [],
    "regex": regex.strip(),
})
```

`rules_json` (line 236) serializes this list verbatim with
`json.dumps`, so the exported JSON objects have exactly these three
fields with exactly these values. -/

/-- The rule object appended when the user clicks "➕ Přidat pravidlo",
from the three text inputs. -/
def mkRule (cat_name keywords regex : String) : Rule :=
  { name := if pyStrip cat_name = "" then "Nezařazeno" else pyStrip cat_name
    keywords :=
      if pyStrip keywords = "" then []
      else (pySplit keywords ",").map (fun k => pyStrip k)
    regex := pyStrip regex }

/-! ## Spec-side definitions

These follow the wording of the specification (not the code); the
theorems below compare them with the embedded code. -/

/-- Spec-side: the category the claim predicts for a row — the name of
the LAST rule in the list that matches the row's lower-cased
description, or the row's original category when no rule matches. -/
def lastMatchCategory (eng : RegexEngine) (rules : List Rule) (row : Row) : String :=
  match (rules.filter (fun r => ruleMatches eng r (pyLower row.popis))).getLast? with
  | some r => r.name
  | none => row.kategorie

/-- The non-category payload of a row (used to state that categorization
changes nothing but the category). -/
def rowFrame (r : Row) : Option Date × Option ℚ × String :=
  (r.datum, r.castka, r.popis)

/-! ## Theorems -/

/-- **C2.** CSV decoding falls back across a fixed list of text
encodings: `try_read_csv` attempts the encodings `"utf-8"`,
`"windows-1250"`, `"cp1250"`, `"iso-8859-2"` in that order, returns the
result of the first attempt that succeeds, and, if and only if every
encoding in the list fails, raises the error from the last attempt. -/
theorem try_read_csv_fallback {E A : Type} (attempt : String → Except E A) :
    (∀ a, attempt "utf-8" = .ok a → try_read_csv attempt = .ok a) ∧
    (∀ e₁ a, attempt "utf-8" = .error e₁ → attempt "windows-1250" = .ok a →
      try_read_csv attempt = .ok a) ∧
    (∀ e₁ e₂ a, attempt "utf-8" = .error e₁ → attempt "windows-1250" = .error e₂ →
      attempt "cp1250" = .ok a → try_read_csv attempt = .ok a) ∧
    (∀ e₁ e₂ e₃ a, attempt "utf-8" = .error e₁ → attempt "windows-1250" = .error e₂ →
      attempt "cp1250" = .error e₃ → attempt "iso-8859-2" = .ok a →
      try_read_csv attempt = .ok a) ∧
    (∀ e₁ e₂ e₃ e₄, attempt "utf-8" = .error e₁ → attempt "windows-1250" = .error e₂ →
      attempt "cp1250" = .error e₃ → attempt "iso-8859-2" = .error e₄ →
      try_read_csv attempt = .error (some e₄)) ∧
    (∀ err, try_read_csv attempt = .error err →
      ∃ e₁ e₂ e₃ e₄, attempt "utf-8" = .error e₁ ∧ attempt "windows-1250" = .error e₂ ∧
        attempt "cp1250" = .error e₃ ∧ attempt "iso-8859-2" = .error e₄ ∧ err = some e₄) := by
  refine ⟨?_, ?_, ?_, ?_, ?_, ?_⟩
  · intro a h
    simp [try_read_csv, defaultEncodings, tryEncodings, h]
  · intro e₁ a h₁ h₂
    simp [try_read_csv, defaultEncodings, tryEncodings, h₁, h₂]
  · intro e₁ e₂ a h₁ h₂ h₃
    simp [try_read_csv, defaultEncodings, tryEncodings, h₁, h₂, h₃]
  · intro e₁ e₂ e₃ a h₁ h₂ h₃ h₄
    simp [try_read_csv, defaultEncodings, tryEncodings, h₁, h₂, h₃, h₄]
  · intro e₁ e₂ e₃ e₄ h₁ h₂ h₃ h₄
    simp [try_read_csv, defaultEncodings, tryEncodings, h₁, h₂, h₃, h₄]
  · intro err h
    cases h₁ : attempt "utf-8" with
    | ok a => simp [try_read_csv, defaultEncodings, tryEncodings, h₁] at h
    | error e₁ =>
      cases h₂ : attempt "windows-1250" with
      | ok a => simp [try_read_csv, defaultEncodings, tryEncodings, h₁, h₂] at h
      | error e₂ =>
        cases h₃ : attempt "cp1250" with
        | ok a => simp [try_read_csv, defaultEncodings, tryEncodings, h₁, h₂, h₃] at h
        | error e₃ =>
          cases h₄ : attempt "iso-8859-2" with
          | ok a => simp [try_read_csv, defaultEncodings, tryEncodings, h₁, h₂, h₃, h₄] at h
          | error e₄ =>
            refine ⟨e₁, e₂, e₃, e₄, rfl, rfl, rfl, rfl, ?_⟩
            simp [try_read_csv, defaultEncodings, tryEncodings, h₁, h₂, h₃, h₄] at h
            exact h.symm

/-- Witness for `try_read_csv_fallback`: with an attempt that fails on
`"utf-8"` and `"windows-1250"` and succeeds on `"cp1250"`, the result is
the `"cp1250"` parse. -/
theorem try_read_csv_fallback_witness :
    try_read_csv (fun enc => if enc = "cp1250" then Except.ok 7 else Except.error enc)
      = Except.ok 7 :=
  (try_read_csv_fallback
      (fun enc => if enc = "cp1250" then Except.ok 7 else Except.error enc)).2.2.1
    "utf-8" "windows-1250" 7 rfl rfl rfl

/-- **C3.** Numeric and date parsing is best-effort and total: `to_float`
and `parse_date` return a value for every input (the embedding returns
`none` / a missing `PdDate` where Python returns `None`/`NaT`, and both
are total functions, so no exception escapes). `to_float` applies the
`float` conversion to the input after stripping, removing spaces and
non-breaking spaces, and replacing commas with dots, and yields `none`
exactly when that conversion fails; `parse_date` tries the day-first
interpretation before the month-first one and yields `NaT` when both
fail. -/
theorem parsing_best_effort (pyFloat : String → Option ℚ)
    (toDatetime : Bool → String → Option Date) :
    (to_float pyFloat none = none) ∧
    (∀ s, to_float pyFloat (some s)
        = pyFloat (pyReplace (pyReplace (pyReplace (pyStrip s) " " "") " " "") "," ".")) ∧
    (parse_date toDatetime none = PdDate.pyNone) ∧
    (∀ s d, toDatetime true (pyStrip s) = some d →
      parse_date toDatetime (some s) = PdDate.timestamp d) ∧
    (∀ s d, toDatetime true (pyStrip s) = none → toDatetime false (pyStrip s) = some d →
      parse_date toDatetime (some s) = PdDate.timestamp d) ∧
    (∀ s, toDatetime true (pyStrip s) = none → toDatetime false (pyStrip s) = none →
      parse_date toDatetime (some s) = PdDate.NaT) := by
  refine ⟨rfl, fun s => rfl, rfl, ?_, ?_, ?_⟩
  · intro s d h
    simp [parse_date, h]
  · intro s d h₁ h₂
    simp [parse_date, h₁, h₂]
  · intro s h₁ h₂
    simp [parse_date, h₁, h₂]

/-- Witness for `parsing_best_effort`: `" 1,5 "` is cleaned to `"1.5"`
and converted; `" 31.10.2025 "` is parsed by the day-first attempt. -/
theorem parsing_best_effort_witness :
    to_float (fun s => if s = "1.5" then some (mkRat 3 2) else none) (some " 1,5 ")
        = some (mkRat 3 2) ∧
    parse_date
        (fun dayfirst s => if dayfirst && (s = "31.10.2025") then some ⟨2025, 10, 31⟩ else none)
        (some " 31.10.2025 ") = PdDate.timestamp ⟨2025, 10, 31⟩ := by
  constructor
  · rw [(parsing_best_effort (fun s => if s = "1.5" then some (mkRat 3 2) else none)
      (fun _ _ => none)).2.1]
    decide
  · exact (parsing_best_effort (fun _ => none)
      (fun dayfirst s => if dayfirst && (s = "31.10.2025") then some ⟨2025, 10, 31⟩ else none)).2.2.2.1
      " 31.10.2025 " ⟨2025, 10, 31⟩ (by decide)

/-- **C7.** A rule built from the three sidebar text inputs has a
non-empty `name` (defaulting to `"Nezařazeno"` when the entered name is
blank), a `keywords` list of stripped strings (empty when no keywords
were entered), and a (possibly empty) stripped `regex` string; the JSON
export (line 236) serializes exactly these three fields. -/
theorem mkRule_fields (cat_name keywords regex : String) :
    ((mkRule cat_name keywords regex).name ≠ "") ∧
    (pyStrip cat_name = "" → (mkRule cat_name keywords regex).name = "Nezařazeno") ∧
    (pyStrip cat_name ≠ "" → (mkRule cat_name keywords regex).name = pyStrip cat_name) ∧
    (∀ k ∈ (mkRule cat_name keywords regex).keywords,
      ∃ t ∈ pySplit keywords ",", k = pyStrip t) ∧
    (pyStrip keywords = "" → (mkRule cat_name keywords regex).keywords = []) ∧
    ((mkRule cat_name keywords regex).regex = pyStrip regex) := by
  refine ⟨?_, ?_, ?_, ?_, ?_, rfl⟩
  · by_cases h : pyStrip cat_name = "" <;> simp [mkRule, h]
  · intro h
    simp [mkRule, h]
  · intro h
    simp [mkRule, h]
  · intro k hk
    by_cases h : pyStrip keywords = ""
    · simp [mkRule, h] at hk
    · simp only [mkRule] at hk
      rw [if_neg h] at hk
      obtain ⟨t, ht, hke⟩ := List.mem_map.mp hk
      exact ⟨t, ht, hke.symm⟩
  · intro h
    simp [mkRule, h]

/-- Witness for `mkRule_fields`: a blank category name defaults to
`"Nezařazeno"`. -/
theorem mkRule_fields_witness :
    pyStrip " " = "" ∧ (mkRule " " "albert, lidl" " a.* ").name = "Nezařazeno" :=
  ⟨by decide, (mkRule_fields " " "albert, lidl" " a.* ").2.1 (by decide)⟩

/-- The rule loop's fold computes the name of the last matching rule
(`cats.mask(mask, cat)` lets every later matching rule overwrite the
category written by an earlier one). -/
theorem foldl_rule_lastMatch (eng : RegexEngine) (text : String)
    (rules : List Rule) : ∀ cat : String,
    rules.foldl (fun c r => if ruleMatches eng r text then r.name else c) cat
      = match (rules.filter (fun r => ruleMatches eng r text)).getLast? with
        | some r => r.name
        | none => cat := by
  induction rules with
  | nil => intro cat; rfl
  | cons r rs ih =>
    intro cat
    rw [List.foldl_cons, ih, List.filter_cons]
    by_cases hm : ruleMatches eng r text = true
    · simp only [hm, if_true, List.getLast?_cons]
      rcases hg : (rs.filter (fun r => ruleMatches eng r text)).getLast? with _ | r'
      · simp [hg]
      · simp [hg]
    · simp [hm]

/-- **C1.** Rule-based categorization is a single linear pass: for every
table and rule list, `apply_rules` assigns each row the category name of
the LAST rule in the list that matches the row's lower-cased description
(`ruleMatches`: a non-blank keyword occurs as a literal substring of the
lower-cased text, or the rule's regex matches it), and leaves the row's
original category unchanged when no rule matches. -/
theorem apply_rules_last_match (eng : RegexEngine) (df : List Row) (rules : List Rule) :
    apply_rules eng df rules
      = df.map (fun row => { row with kategorie := lastMatchCategory eng rules row }) := by
  unfold apply_rules
  by_cases h : rules.isEmpty
  · rw [if_pos h, List.isEmpty_iff.mp h]
    have hfun : (fun row : Row => { row with kategorie := lastMatchCategory eng [] row })
        = fun row : Row => row := by
      funext row
      rfl
    rw [hfun, List.map_id']
  · rw [if_neg h]
    apply List.map_congr_left
    intro row _
    have hcat : rowCategory eng rules row = lastMatchCategory eng rules row := by
      unfold rowCategory lastMatchCategory
      rw [foldl_rule_lastMatch]
    rw [hcat]

/-- **C9.** Categorization changes nothing but the category: the table
returned by `apply_rules` has the same number of rows, and the same
`datum`, `castka` and `popis` in each row, as the input (the embedding
is functional, so the input list itself is never mutated). -/
theorem apply_rules_frame (eng : RegexEngine) (df : List Row) (rules : List Rule) :
    (apply_rules eng df rules).length = df.length ∧
    (apply_rules eng df rules).map rowFrame = df.map rowFrame := by
  constructor
  · unfold apply_rules
    by_cases h : rules.isEmpty
    · rw [if_pos h]
    · rw [if_neg h, List.length_map]
  · unfold apply_rules
    by_cases h : rules.isEmpty
    · rw [if_pos h]
    · rw [if_neg h, List.map_map]
      rfl

/-- **C8.** An invalid regular expression is silently tolerated: when
the engine rejects a rule's (stripped) regex, the rule matches exactly
the rows matched by its keywords, and `apply_rules` behaves as if the
rule had an empty regex (no exception: the embedding is total). -/
theorem apply_rules_invalid_regex (eng : RegexEngine) (df : List Row)
    (l1 l2 : List Rule) (r : Rule)
    (h : eng.compile (pyStrip r.regex) = none) :
    (∀ text, ruleMatches eng r text
        = (ruleKeywords r).any (fun k => strContains text k)) ∧
    apply_rules eng df (l1 ++ r :: l2)
      = apply_rules eng df (l1 ++ { r with regex := "" } :: l2) := by
  have hm : ∀ text, ruleMatches eng r text
      = (ruleKeywords r).any (fun k => strContains text k) := by
    intro text
    unfold ruleMatches
    by_cases hrx : pyStrip r.regex = ""
    · simp [hrx]
    · simp [hrx, h]
  refine ⟨hm, ?_⟩
  have hm2 : ∀ text, ruleMatches eng { r with regex := "" } text = ruleMatches eng r text := by
    intro text
    rw [hm]
    have he : pyStrip ("" : String) = "" := rfl
    simp [ruleMatches, ruleKeywords, he]
  unfold apply_rules
  rw [if_neg (by simp), if_neg (by simp)]
  apply List.map_congr_left
  intro row _
  have hcat : rowCategory eng (l1 ++ r :: l2) row
      = rowCategory eng (l1 ++ { r with regex := "" } :: l2) row := by
    unfold rowCategory
    simp only [List.foldl_append, List.foldl_cons]
    simp only [hm2]
  rw [hcat]

/-- Witness for `apply_rules_invalid_regex`: an engine on which every
pattern fails to compile (e.g. the pattern `"("`): the keyword still
fires, the regex contributes nothing. -/
theorem apply_rules_invalid_regex_witness :
    apply_rules ⟨fun _ => none⟩ [⟨none, some 5, "Lidl 123", "Nezařazeno"⟩]
        ([] ++ ⟨"Potraviny", ["lidl"], "("⟩ :: [])
      = apply_rules ⟨fun _ => none⟩ [⟨none, some 5, "Lidl 123", "Nezařazeno"⟩]
        ([] ++ ⟨"Potraviny", ["lidl"], ""⟩ :: []) :=
  (apply_rules_invalid_regex ⟨fun _ => none⟩ [⟨none, some 5, "Lidl 123", "Nezařazeno"⟩]
    [] [] ⟨"Potraviny", ["lidl"], "("⟩ rfl).2

/-- **C10.** An empty rule list is the identity, and a rule with only
blank keywords and a blank regex changes nothing: it can be removed from
any rule list without changing the result of `apply_rules`. -/
theorem apply_rules_empty_and_blank (eng : RegexEngine) (df : List Row)
    (l1 l2 : List Rule) (r : Rule)
    (hk : ∀ k ∈ r.keywords, pyStrip k = "") (hr : pyStrip r.regex = "") :
    apply_rules eng df [] = df ∧
    apply_rules eng df (l1 ++ r :: l2) = apply_rules eng df (l1 ++ l2) := by
  have hmatch : ∀ text, ruleMatches eng r text = false := by
    intro text
    have hkw : ruleKeywords r = [] := by
      unfold ruleKeywords
      rw [List.filter_eq_nil_iff.mpr]
      · rfl
      · intro k hkmem
        simp [hk k hkmem]
    unfold ruleMatches
    rw [hkw]
    simp [hr]
  refine ⟨rfl, ?_⟩
  have hrow : ∀ row, rowCategory eng (l1 ++ r :: l2) row = rowCategory eng (l1 ++ l2) row := by
    intro row
    unfold rowCategory
    simp only [List.foldl_append, List.foldl_cons, hmatch, Bool.false_eq_true, if_false]
  rcases hl : l1 ++ l2 with _ | ⟨x, xs⟩
  · obtain ⟨h1, h2⟩ := List.append_eq_nil.mp hl
    subst h1
    subst h2
    unfold apply_rules
    rw [if_neg (by simp)]
    have hfun : (fun row : Row => { row with kategorie := rowCategory eng ([] ++ r :: []) row })
        = fun row : Row => row := by
      funext row
      have : rowCategory eng ([] ++ r :: []) row = row.kategorie := by
        unfold rowCategory
        simp [hmatch]
      rw [this]
    rw [hfun, List.map_id']
    rfl
  · unfold apply_rules
    rw [if_neg (by simp), if_neg (by simp [hl])]
    apply List.map_congr_left
    intro row _
    rw [hrow, hl]

/-- Witness for `apply_rules_empty_and_blank`: a rule whose only keyword
is blank and whose regex is blank leaves the table as the empty rule
list does. -/
theorem apply_rules_empty_and_blank_witness :
    apply_rules ⟨fun _ => none⟩ [⟨none, some 5, "text", "K"⟩] [] = [⟨none, some 5, "text", "K"⟩] ∧
    apply_rules ⟨fun _ => none⟩ [⟨none, some 5, "text", "K"⟩] ([] ++ ⟨"X", [" "], " "⟩ :: [])
      = apply_rules ⟨fun _ => none⟩ [⟨none, some 5, "text", "K"⟩] ([] ++ []) :=
  apply_rules_empty_and_blank ⟨fun _ => none⟩ [⟨none, some 5, "text", "K"⟩]
    [] [] ⟨"X", [" "], " "⟩ (by decide) (by decide)

/-- Every amount is positive, negative, or zero, so the skipna-sum of a
row list splits into the sum over its positive rows plus the sum over
its negative rows. -/
theorem sumCastka_split (l : List Row) :
    sumCastka l = sumCastka (posRows l) + sumCastka (negRows l) := by
  unfold sumCastka posRows negRows
  induction l with
  | nil => simp
  | cons r rs ih =>
    rcases hc : r.castka with _ | c
    · simp only [List.filter_cons, List.filterMap_cons, hc]
      simpa using ih
    · rcases lt_trichotomy c 0 with hlt | heq | hgt
      · have h1 : ¬ (0 < c) := not_lt.mpr (le_of_lt hlt)
        simp only [List.filter_cons, List.filterMap_cons, hc]
        simp [hlt, h1, List.filterMap_cons, hc]
        rw [ih]
        ring
      · subst heq
        simp only [List.filter_cons, List.filterMap_cons, hc]
        simp [List.filterMap_cons, hc]
        exact ih
      · have h1 : ¬ (c < 0) := not_lt.mpr (le_of_lt hgt)
        simp only [List.filter_cons, List.filterMap_cons, hc]
        simp [hgt, h1, List.filterMap_cons, hc]
        rw [ih]
        ring

/-- Filtering to a month commutes with filtering on the amount. -/
theorem monthRows_filter_comm (p : Row → Bool) (df : List Row) (m : Int) :
    monthRows (df.filter p) m = (monthRows df m).filter p := by
  unfold monthRows
  rw [List.filter_filter, List.filter_filter]
  congr 1
  funext r
  exact Bool.and_comm _ _

/-- The month group's total is its income total plus its (signed)
expense total. -/
theorem sumCastka_month_split (df : List Row) (m : Int) :
    sumCastka (monthRows df m)
      = sumCastka (monthRows (posRows df) m) + sumCastka (monthRows (negRows df) m) := by
  have h1 : monthRows (posRows df) m = posRows (monthRows df m) :=
    monthRows_filter_comm _ df m
  have h2 : monthRows (negRows df) m = negRows (monthRows df m) :=
    monthRows_filter_comm _ df m
  rw [h1, h2]
  exact sumCastka_split (monthRows df m)

/-- **C4.** In the monthly trend, the balance is income minus expenses:
every entry of `monthly_summary` has `Saldo = Příjmy − Výdaje`, where
`Příjmy` is the sum of the month's positive amounts (0 when there are
none), `Výdaje` the negated sum of its negative amounts (0 when there
are none), and `Saldo` the sum of all of the month's amounts. -/
theorem monthly_summary_saldo (df : List Row) (e : MonthEntry)
    (he : e ∈ monthly_summary df) :
    e.saldo = e.prijmy - e.vydaje ∧
    e.prijmy = sumCastka (monthRows (posRows df) e.mesic) ∧
    e.vydaje = - sumCastka (monthRows (negRows df) e.mesic) ∧
    e.saldo = sumCastka (monthRows df e.mesic) := by
  unfold monthly_summary at he
  obtain ⟨m, _, rfl⟩ := List.mem_map.mp he
  refine ⟨?_, rfl, rfl, rfl⟩
  show sumCastka (monthRows df m)
      = sumCastka (monthRows (posRows df) m) - (- sumCastka (monthRows (negRows df) m))
  rw [sumCastka_month_split df m]
  ring

/-- Witness for `monthly_summary_saldo`: a table with one January-2025
income of 10 and one February-2025 expense of −4 yields for February the
entry `(Příjmy, Výdaje, Saldo) = (0, 4, −4)`. -/
theorem monthly_summary_saldo_witness :
    (⟨24302, 0, 4, -4⟩ : MonthEntry).saldo
        = (⟨24302, 0, 4, -4⟩ : MonthEntry).prijmy - (⟨24302, 0, 4, -4⟩ : MonthEntry).vydaje ∧
    (⟨24302, 0, 4, -4⟩ : MonthEntry).prijmy
        = sumCastka (monthRows (posRows
            [⟨some ⟨2025, 1, 10⟩, some 10, "a", "X"⟩,
             ⟨some ⟨2025, 2, 11⟩, some (-4), "b", "Y"⟩]) 24302) ∧
    (⟨24302, 0, 4, -4⟩ : MonthEntry).vydaje
        = - sumCastka (monthRows (negRows
            [⟨some ⟨2025, 1, 10⟩, some 10, "a", "X"⟩,
             ⟨some ⟨2025, 2, 11⟩, some (-4), "b", "Y"⟩]) 24302) ∧
    (⟨24302, 0, 4, -4⟩ : MonthEntry).saldo
        = sumCastka (monthRows
            [⟨some ⟨2025, 1, 10⟩, some 10, "a", "X"⟩,
             ⟨some ⟨2025, 2, 11⟩, some (-4), "b", "Y"⟩] 24302) :=
  monthly_summary_saldo
    [⟨some ⟨2025, 1, 10⟩, some 10, "a", "X"⟩, ⟨some ⟨2025, 2, 11⟩, some (-4), "b", "Y"⟩]
    ⟨24302, 0, 4, -4⟩ (by
      simp [monthly_summary, rowMonth, monthRows, posRows, negRows, sumCastka,
        List.insertionSort, List.orderedInsert, List.dedup, List.filter_cons,
        List.filterMap_cons])

/-- A non-empty list of rows that all carry a negative amount has a
negative skipna-sum. -/
theorem sumCastka_neg_of_all (l : List Row)
    (hall : ∀ r ∈ l, ∃ q, r.castka = some q ∧ q < 0) (hne : l ≠ []) :
    sumCastka l < 0 := by
  induction l with
  | nil => exact absurd rfl hne
  | cons r rs ih =>
    obtain ⟨q, hq, hqlt⟩ := hall r (List.mem_cons_self r rs)
    have hsum : sumCastka (r :: rs) = q + sumCastka rs := by
      simp [sumCastka, List.filterMap_cons, hq]
    by_cases hrs : rs = []
    · subst hrs
      rw [hsum]
      have h0 : sumCastka ([] : List Row) = 0 := rfl
      rw [h0]
      linarith
    · have := ih (fun r hr => hall r (List.mem_cons_of_mem _ hr)) hrs
      rw [hsum]
      linarith

/-- Every row of `negRows df` carries a negative amount. -/
theorem negRows_negative (df : List Row) :
    ∀ r ∈ negRows df, ∃ q, r.castka = some q ∧ q < 0 := by
  intro r hr
  have hp := (List.mem_filter.mp hr).2
  rcases hc : r.castka with _ | q
  · rw [hc] at hp
    simp at hp
  · rw [hc] at hp
    simp at hp
    exact ⟨q, rfl, hp⟩

/-- **C5 (amended).** The per-category breakdown covers expenses only:
`category_summary` returns, for exactly those categories with at least
one negative-amount row, the negated sum of that category's negative
amounts — a positive number — and rows with positive or zero amounts
contribute nothing. (Amended from the claim: the unary minus is applied
AFTER `sort_values(ascending=False)`, which sorts the negative sums
descending, so the reported positive values come out in *ascending*
order of that value, not descending; see
`category_summary_descending_counterexample`.) -/
theorem category_summary_expenses (df : List Row) :
    (∀ c v, (c, v) ∈ category_summary df →
      v = - sumCastka ((negRows df).filter (fun r => r.kategorie = c)) ∧ 0 < v) ∧
    (∀ c, (∃ v, (c, v) ∈ category_summary df) ↔
      (∃ r ∈ df, r.kategorie = c ∧ ∃ q, r.castka = some q ∧ q < 0)) ∧
    List.Sorted (fun a b : String × ℚ => a.2 ≤ b.2) (category_summary df) := by
  have hmem : ∀ cv : String × ℚ, cv ∈ category_summary df ↔
      ∃ p ∈ categoryPairs df, (p.1, -p.2) = cv := by
    intro cv
    unfold category_summary
    rw [List.mem_map]
    constructor
    · rintro ⟨p, hp, rfl⟩
      exact ⟨p, (List.perm_insertionSort _ _).mem_iff.mp hp, rfl⟩
    · rintro ⟨p, hp, rfl⟩
      exact ⟨p, (List.perm_insertionSort _ _).mem_iff.mpr hp, rfl⟩
  have hcat_mem : ∀ c, c ∈ ((negRows df).map (fun r => r.kategorie)).dedup ↔
      ∃ r ∈ negRows df, r.kategorie = c := by
    intro c
    rw [List.mem_dedup, List.mem_map]
  have hpair : ∀ c v, (c, v) ∈ category_summary df →
      c ∈ ((negRows df).map (fun r => r.kategorie)).dedup ∧ v = - categoryRawSum df c := by
    intro c v hcv
    obtain ⟨p, hp, heq⟩ := (hmem (c, v)).mp hcv
    unfold categoryPairs at hp
    obtain ⟨c', hc', hpe⟩ := List.mem_map.mp hp
    subst hpe
    have h1 : c' = c := congrArg Prod.fst heq
    subst h1
    exact ⟨hc', (congrArg Prod.snd heq).symm⟩
  refine ⟨?_, ?_, ?_⟩
  · intro c v hcv
    obtain ⟨hcdedup, hv⟩ := hpair c v hcv
    obtain ⟨r, hrneg, hrc⟩ := (hcat_mem c).mp hcdedup
    have hS : r ∈ (negRows df).filter (fun r => r.kategorie = c) := by
      rw [List.mem_filter]
      exact ⟨hrneg, by simp [hrc]⟩
    have hSneg : sumCastka ((negRows df).filter (fun r => r.kategorie = c)) < 0 := by
      apply sumCastka_neg_of_all
      · intro r' hr'
        exact negRows_negative df r' (List.mem_filter.mp hr').1
      · exact List.ne_nil_of_mem hS
    constructor
    · exact hv
    · rw [hv]
      unfold categoryRawSum
      linarith
  · intro c
    constructor
    · rintro ⟨v, hcv⟩
      obtain ⟨hcdedup, _⟩ := hpair c v hcv
      obtain ⟨r, hrneg, hrc⟩ := (hcat_mem c).mp hcdedup
      obtain ⟨q, hq, hqlt⟩ := negRows_negative df r hrneg
      exact ⟨r, (List.mem_filter.mp hrneg).1, hrc, q, hq, hqlt⟩
    · rintro ⟨r, hrdf, hrc, q, hq, hqlt⟩
      have hrneg : r ∈ negRows df := List.mem_filter.mpr ⟨hrdf, by rw [hq]; simp [hqlt]⟩
      refine ⟨- categoryRawSum df r.kategorie, ?_⟩
      rw [hmem]
      refine ⟨(r.kategorie, categoryRawSum df r.kategorie), ?_, by rw [hrc]⟩
      unfold categoryPairs
      rw [List.mem_map]
      refine ⟨r.kategorie, ?_, rfl⟩
      rw [hcat_mem]
      exact ⟨r, hrneg, rfl⟩
  · have hs := List.sorted_insertionSort (fun a b : String × ℚ => b.2 ≤ a.2) (categoryPairs df)
    exact List.Pairwise.map _ (fun a b h => neg_le_neg h) hs

/-- Witness for `category_summary_expenses`: a table with one expense of
−3 in category `"Jídlo"` and one income reports exactly
`("Jídlo", 3)`. -/
theorem category_summary_expenses_witness :
    (3:ℚ) = - sumCastka ((negRows
        [⟨none, some (-3), "a", "Jídlo"⟩, ⟨none, some 2, "b", "Jídlo"⟩]).filter
          (fun r => r.kategorie = "Jídlo")) ∧ (0:ℚ) < 3 :=
  (category_summary_expenses
      [⟨none, some (-3), "a", "Jídlo"⟩, ⟨none, some 2, "b", "Jídlo"⟩]).1
    "Jídlo" 3 (by
      simp [category_summary, categoryPairs, categoryRawSum, negRows, sumCastka,
        List.insertionSort, List.orderedInsert, List.dedup, List.filter_cons,
        List.filterMap_cons])

/-- Counterexample to **C5** as stated: the claim says the values are
sorted in descending order, but the unary minus in the source applies to
the whole `sort_values(ascending=False)` chain. With expenses
A: −10 and B: −5, the negative sums sort descending to
`[(B, −5), (A, −10)]` and negate to `[(B, 5), (A, 10)]` — ascending,
not descending, in the reported value. -/
theorem category_summary_descending_counterexample :
    category_summary [⟨none, some (-10), "a", "A"⟩, ⟨none, some (-5), "b", "B"⟩]
      = [("B", 5), ("A", 10)] ∧
    ¬ List.Sorted (fun a b : String × ℚ => b.2 ≤ a.2)
        (category_summary [⟨none, some (-10), "a", "A"⟩, ⟨none, some (-5), "b", "B"⟩]) := by
  have h : category_summary [⟨none, some (-10), "a", "A"⟩, ⟨none, some (-5), "b", "B"⟩]
      = [("B", 5), ("A", 10)] := by
    norm_num [category_summary, categoryPairs, categoryRawSum, negRows, sumCastka,
      List.insertionSort, List.orderedInsert, List.dedup, List.filter_cons,
      List.filterMap_cons, show ("A":String) ≠ "B" from by decide,
      show ("B":String) ≠ "A" from by decide]
  refine ⟨h, ?_⟩
  rw [h]
  intro hsort
  have h2 := List.rel_of_sorted_cons hsort ("A", 10) (by simp)
  norm_num at h2

/-- **C6 (amended).** Column normalization produces the fixed schema:
`ensure_columns` keeps the row index (one output row per input row, in
order) and yields exactly `datum` (parsed date), `castka` (parsed
amount), `popis` (description as string) and `kategorie`; without a
mapped category column every `kategorie` is `"Nezařazeno"`; with a
mapped direction column a row whose direction text contains an incoming
marker *and no outgoing marker* gets a non-negative amount, a row whose
direction text contains an outgoing marker gets a non-positive amount,
and a missing amount stays missing. (Amended from the claim: when the
direction text contains both kinds of marker, the outgoing assignment —
executed second — wins, so such a row can end up negative; see
`ensure_columns_both_markers_counterexample`.) -/
theorem ensure_columns_schema (pyFloat : String → Option ℚ)
    (toDatetime : Bool → String → Option Date)
    (df : List RawRow) (mapping : Mapping) :
    (ensure_columns pyFloat toDatetime df mapping).length = df.length ∧
    (∀ (i : Nat) (raw : RawRow) (out : Row), df[i]? = some raw →
      (ensure_columns pyFloat toDatetime df mapping)[i]? = some out →
      (out.datum = (parse_date toDatetime (raw mapping.date)).toOption ∧
       out.popis = astypeStr (raw mapping.desc) ∧
       (mapping.category = none → out.kategorie = "Nezařazeno") ∧
       (∀ ccol, mapping.category = some ccol → out.kategorie = astypeStr (raw ccol)) ∧
       (mapping.direction = none → out.castka = to_float pyFloat (raw mapping.amount)) ∧
       (∀ dcol, mapping.direction = some dcol →
         (to_float pyFloat (raw mapping.amount) = none → out.castka = none) ∧
         (containsAny (pyLower (astypeStr (raw dcol))) incomingMarkers = true →
          containsAny (pyLower (astypeStr (raw dcol))) outgoingMarkers = false →
          ∀ q, out.castka = some q → 0 ≤ q) ∧
         (containsAny (pyLower (astypeStr (raw dcol))) outgoingMarkers = true →
          ∀ q, out.castka = some q → q ≤ 0)))) := by
  constructor
  · exact List.length_map _ _
  · intro i raw out hraw hout
    unfold ensure_columns at hout
    rw [List.getElem?_map, hraw, Option.map_some'] at hout
    injection hout with hout
    subst hout
    refine ⟨rfl, rfl, ?_, ?_, ?_, ?_⟩
    · intro h
      simp [h]
    · intro ccol h
      simp [h]
    · intro h
      simp [h]
    · intro dcol hdir
      refine ⟨?_, ?_, ?_⟩
      · intro h0
        simp [hdir, h0, directionFix]
      · intro hin hnout q hq
        rcases hfc : to_float pyFloat (raw mapping.amount) with _ | c
        · simp [hdir, hfc, directionFix] at hq
        · simp [hdir, hfc, directionFix, hin, hnout] at hq
          rw [← hq]
          exact abs_nonneg c
      · intro hneg q hq
        rcases hfc : to_float pyFloat (raw mapping.amount) with _ | c
        · simp [hdir, hfc, directionFix] at hq
        · simp [hdir, hfc, directionFix, hneg] at hq
          rw [← hq]
          exact neg_nonpos_of_nonneg (abs_nonneg _)

/-- Witness for `ensure_columns_schema`: a one-row table with no
amount cell keeps the amount missing, gets the `"nan"` description and
the default category. -/
theorem ensure_columns_schema_witness :
    (ensure_columns (fun _ => none) (fun _ _ => none)
        [fun col => if col = "dir" then some "odchozi platba" else none]
        ⟨"d", "amt", "ds", none, some "dir"⟩)[0]?
      = some ⟨none, none, "nan", "Nezařazeno"⟩ ∧
    (⟨none, none, "nan", "Nezařazeno"⟩ : Row).castka = none := by
  refine ⟨rfl, ?_⟩
  exact (((ensure_columns_schema (fun _ => none) (fun _ _ => none)
      [fun col => if col = "dir" then some "odchozi platba" else none]
      ⟨"d", "amt", "ds", none, some "dir"⟩).2 0
      (fun col => if col = "dir" then some "odchozi platba" else none)
      ⟨none, none, "nan", "Nezařazeno"⟩ rfl rfl).2.2.2.2.2 "dir" rfl).1 rfl

/-- Counterexample to **C6** as stated: the claim demands that every row
whose direction text contains an incoming marker get a non-negative
amount, but a direction text containing both markers (here
`"incoming debit"`) takes the expense branch second, so an amount of `5`
ends up `-5 < 0`. -/
theorem ensure_columns_both_markers_counterexample :
    containsAny (pyLower "incoming debit") incomingMarkers = true ∧
    (ensure_columns (fun s => if s = "5" then some 5 else none) (fun _ _ => none)
        [fun col => if col = "dir" then some "incoming debit"
         else if col = "amt" then some "5" else none]
        ⟨"d", "amt", "ds", none, some "dir"⟩).map (fun r => r.castka)
      = [some (-5)] ∧
    ¬ ((0:ℚ) ≤ -5) := by
  refine ⟨by decide, ?_, by decide⟩
  have h5 : |(5:ℚ)| = 5 := abs_of_nonneg (by norm_num)
  have hstr : pyReplace (pyReplace (pyReplace (pyStrip "5") " " "") "\u00A0" "") "," "." = "5" := by
    decide
  have hin : containsAny (pyLower (astypeStr (some "incoming debit"))) incomingMarkers = true := by
    decide
  have hout : containsAny (pyLower (astypeStr (some "incoming debit"))) outgoingMarkers = true := by
    decide
  simp [ensure_columns, directionFix, to_float, hstr, hin, hout, h5]

end FinancePrehled
